import Mathlib

/-!
Shallow embedding of the marketplace backend (express + sql.js) and proofs
about its order, payment, catalog and admin handlers.

Conventions of the embedding:
* SQLite rows become Lean structures; `REAL` money columns and `INTEGER`
  quantities become `Int` (stock may go negative, which is the point of one
  of the theorems); nullable columns become `Option`.
* The single shared store is a `DB` structure; each route handler becomes a
  function `DB -> request data -> (result, DB)`.  List order models
  insertion order (`created_at` ascending); `AUTOINCREMENT` ids are modelled
  by `next…Id` counters.
* JavaScript falsiness of request fields is modelled explicitly: a missing
  or empty string is falsy, the number 0 is falsy.
-/

namespace Selleing

inductive Role where
  | buyer
  | seller
  | superuser
deriving DecidableEq

inductive OrderStatus where
  | pending
  | processing
  | completed
  | cancelled
deriving DecidableEq

inductive TxStatus where
  | pending
  | verified
  | failed
deriving DecidableEq

structure User where
  id : Nat
  email : String
  password : String
  role : Role
  binance_wallet : Option String
  earnings : Int
  is_active : Bool
deriving DecidableEq

structure Category where
  id : Nat
  name : String
  description : String
deriving DecidableEq

structure Product where
  id : Nat
  name : String
  description : String
  price : Int
  stock : Int
  category_id : Nat
  image_url : Option String
  is_active : Bool
deriving DecidableEq

structure Order where
  id : Nat
  buyer_id : Nat
  seller_id : Option Nat
  status : OrderStatus
  total_amount : Int
  contact_name : String
  contact_email : String
  contact_phone : Option String
  contact_info : Option String
  payment_proof : Option String
  binance_txid : Option String
deriving DecidableEq

structure OrderItem where
  order_id : Nat
  product_id : Nat
  quantity : Int
  price : Int
deriving DecidableEq

structure Transaction where
  id : Nat
  order_id : Nat
  user_id : Nat
  amount : Int
  binance_txid : Option String
  payment_proof_url : Option String
  status : TxStatus
deriving DecidableEq

structure SellerEarning where
  seller_id : Nat
  order_id : Nat
  amount : Int
deriving DecidableEq

/-- The whole sql.js store (src/database/schema.sql). -/
structure DB where
  users : List User
  categories : List Category
  products : List Product
  orders : List Order
  order_items : List OrderItem
  transactions : List Transaction
  seller_earnings : List SellerEarning
  nextUserId : Nat
  nextProductId : Nat
  nextOrderId : Nat
  nextTxId : Nat
deriving DecidableEq

/-! ## Row lookups shared by the handlers -/

/-- SELECT … FROM products WHERE id = ? AND is_active = 1 -/
def activeProduct (db : DB) (pid : Nat) : Option Product :=
  db.products.find? (fun p => p.id == pid && p.is_active)

/-- SELECT … FROM products WHERE id = ? -/
def anyProduct (db : DB) (pid : Nat) : Option Product :=
  db.products.find? (fun p => p.id == pid)

/-- Price of the first product row with a given id in a bare product list;
0 stands for the unreachable branch in which no row exists. -/
def priceOfL (ps : List Product) (pid : Nat) : Int :=
  match ps.find? (fun p => p.id == pid) with
  | some p => p.price
  | none => 0

/-- Price read by the order-item insertion loop (SELECT price FROM products
WHERE id = ?, without the is_active filter); 0 stands for the unreachable
branch in which the product vanished between check and insert (sequentially
impossible, the check already found it). -/
def priceOf (db : DB) (pid : Nat) : Int :=
  priceOfL db.products pid

/-- SELECT … FROM orders WHERE id = ? -/
def orderById (db : DB) (oid : Nat) : Option Order :=
  db.orders.find? (fun o => o.id == oid)

/-- SELECT … FROM users WHERE id = ? AND role = 'seller' -/
def sellerById (db : DB) (sid : Nat) : Option User :=
  db.users.find? (fun u => u.id == sid && u.role == Role.seller)

/-! ## POST /orders (src/routes/orders.js, create order) -/

structure ReqItem where
  product_id : Nat
  quantity : Int
deriving DecidableEq

structure CreateOrderReq where
  items : List ReqItem
  contact_name : String
  contact_email : String
  contact_phone : Option String
  contact_info : Option String
deriving DecidableEq

inductive OrderError where
  | emptyItems
  | missingContact
  | invalidProduct (pid : Nat)
  | insufficientStock (pid : Nat)
deriving DecidableEq

/-- First loop of the handler: verify each requested item against the
current product row and accumulate `total += product.price * item.quantity`.
No stock is decremented during this loop. -/
def checkTotal (db : DB) : List ReqItem → Except OrderError Int
  | [] => Except.ok 0
  | it :: rest =>
    match activeProduct db it.product_id with
    | none => Except.error (OrderError.invalidProduct it.product_id)
    | some p =>
      if p.stock < it.quantity then
        Except.error (OrderError.insufficientStock it.product_id)
      else
        (checkTotal db rest).map (fun t => p.price * it.quantity + t)

/-- UPDATE products SET stock = stock - ? WHERE id = ? -/
def decStock (ps : List Product) (pid : Nat) (q : Int) : List Product :=
  ps.map (fun p => if p.id == pid then { p with stock := p.stock - q } else p)

/-- Second loop of the handler: for each item re-read the product price
(without the is_active filter), insert the order_items row, then decrement
the product stock, threading the store through the iterations. -/
def applyItems (oid : Nat) : DB → List ReqItem → DB
  | db, [] => db
  | db, it :: rest =>
    let price := priceOf db it.product_id
    let db1 : DB :=
      { db with
        order_items := db.order_items ++
          [{ order_id := oid, product_id := it.product_id,
             quantity := it.quantity, price := price }],
        products := decStock db.products it.product_id it.quantity }
    applyItems oid db1 rest

/-- POST /orders: validation, stock check, order insert, item inserts with
stock decrements.  On any error the store is unchanged. -/
def createOrder (db : DB) (buyerId : Nat) (req : CreateOrderReq) :
    Except OrderError (Nat × Int) × DB :=
  if req.items.isEmpty then
    (Except.error OrderError.emptyItems, db)
  else if req.contact_name = "" ∨ req.contact_email = "" then
    (Except.error OrderError.missingContact, db)
  else
    match checkTotal db req.items with
    | Except.error e => (Except.error e, db)
    | Except.ok total =>
      let oid := db.nextOrderId
      let newOrder : Order :=
        { id := oid, buyer_id := buyerId, seller_id := none,
          status := OrderStatus.pending, total_amount := total,
          contact_name := req.contact_name, contact_email := req.contact_email,
          contact_phone := req.contact_phone, contact_info := req.contact_info,
          payment_proof := none, binance_txid := none }
      let db1 : DB :=
        { db with orders := db.orders ++ [newOrder], nextOrderId := oid + 1 }
      (Except.ok (oid, total), applyItems oid db1 req.items)

/-! ## PUT /orders/:id/status (src/routes/orders.js) -/

inductive StatusError where
  | invalidStatus
  | notFound
deriving DecidableEq

/-- validStatuses = ['pending', 'processing', 'completed', 'cancelled'] -/
def parseStatus (s : String) : Option OrderStatus :=
  if s = "pending" then some OrderStatus.pending
  else if s = "processing" then some OrderStatus.processing
  else if s = "completed" then some OrderStatus.completed
  else if s = "cancelled" then some OrderStatus.cancelled
  else none

/-- JavaScript truthiness of a stored seller_id (`!order.seller_id`). -/
def sellerUnset : Option Nat → Bool
  | none => true
  | some n => n == 0

/-- The request-body seller id wins unless it is absent or 0 (falsy):
seller_id || req.user.id in the source. -/
def chosenSeller (sellerParam : Option Nat) (actorId : Nat) : Nat :=
  match sellerParam with
  | some s => if s = 0 then actorId else s
  | none => actorId

/-- The write phase of the status handler, applied to a previously read
snapshot of the order: if the target is 'processing' and the snapshot has no
seller, assign one together with the status; otherwise set the status only.
No current-status guard exists in the source. -/
def statusWrite (db : DB) (actorId oid : Nat) (st : OrderStatus)
    (snapSeller : Option Nat) (sellerParam : Option Nat) : DB :=
  if st = OrderStatus.processing ∧ sellerUnset snapSeller then
    { db with orders := db.orders.map (fun o =>
        if o.id == oid then
          { o with status := st, seller_id := some (chosenSeller sellerParam actorId) }
        else o) }
  else
    { db with orders := db.orders.map (fun o =>
        if o.id == oid then { o with status := st } else o) }

/-- The whole handler given the snapshot its read phase produced. -/
def statusReqOnSnapshot (db : DB) (actorId oid : Nat) (status : String)
    (sellerParam : Option Nat) (snap : Option Order) :
    Except StatusError Unit × DB :=
  match parseStatus status with
  | none => (Except.error StatusError.invalidStatus, db)
  | some st =>
    match snap with
    | none => (Except.error StatusError.notFound, db)
    | some order =>
      (Except.ok (), statusWrite db actorId oid st order.seller_id sellerParam)

/-- PUT /orders/:id/status run in isolation: read the order, then decide and
write against the same store. -/
def updateOrderStatus (db : DB) (actorId oid : Nat) (status : String)
    (sellerParam : Option Nat) : Except StatusError Unit × DB :=
  statusReqOnSnapshot db actorId oid status sellerParam (orderById db oid)

/-- Two status requests racing on the same order, scheduled as
read A, read B, write A, write B — the interleaving the store (which has no
locking) permits.  Each request validates and writes against its own earlier
snapshot. -/
def twoStatusRequests (db : DB) (actorA actorB oid : Nat) (status : String)
    (spA spB : Option Nat) :
    Except StatusError Unit × Except StatusError Unit × DB :=
  let snapA := orderById db oid
  let snapB := orderById db oid
  let ra := statusReqOnSnapshot db actorA oid status spA snapA
  let rb := statusReqOnSnapshot ra.2 actorB oid status spB snapB
  (ra.1, rb.1, rb.2)

/-! ## POST /orders/:id/payment-proof (src/routes/orders.js) -/

inductive ProofError where
  | notFound
deriving DecidableEq

/-- UPDATE orders SET payment_proof = ?, binance_txid = ? WHERE id = ? -/
def proofUpd (oid : Nat) (pf txid : String) (o : Order) : Order :=
  if o.id == oid then
    { o with payment_proof := some pf, binance_txid := some txid }
  else o

/-- POST /orders/:id/payment-proof: the order must exist and belong to the
acting buyer; then the proof fields are written and one pending transaction
row for the order total is inserted. -/
def submitPaymentProof (db : DB) (buyerId oid : Nat) (pf txid : String) :
    Except ProofError Unit × DB :=
  match db.orders.find? (fun o => o.id == oid && o.buyer_id == buyerId) with
  | none => (Except.error ProofError.notFound, db)
  | some order =>
    let tx : Transaction :=
      { id := db.nextTxId, order_id := oid, user_id := buyerId,
        amount := order.total_amount, binance_txid := some txid,
        payment_proof_url := some pf, status := TxStatus.pending }
    (Except.ok (),
      { db with
        orders := db.orders.map (proofUpd oid pf txid),
        transactions := db.transactions ++ [tx],
        nextTxId := db.nextTxId + 1 })

/-! ## POST /payments/create and POST /payments/webhook (src/unnamed/part_000) -/

inductive PayError where
  | missingFields
  | notFound
deriving DecidableEq

/-- POST /payments/create: after the buyer-ownership check the only store
effect is writing the provider prepay id into orders.binance_txid.  The
outbound provider call is an external collaborator and is not modelled. -/
def paymentCreate (db : DB) (buyerId oid : Nat) (amount : Int)
    (prepayId : String) : Except PayError Unit × DB :=
  if oid = 0 ∨ amount = 0 then (Except.error PayError.missingFields, db)
  else
    match db.orders.find? (fun o => o.id == oid && o.buyer_id == buyerId) with
    | none => (Except.error PayError.notFound, db)
    | some _ =>
      (Except.ok (),
        { db with orders := db.orders.map (fun o =>
            if o.id == oid then { o with binance_txid := some prepayId } else o) })

structure WebhookHeaders where
  signature : String
  timestamp : String
  nonce : String
deriving DecidableEq

structure WebhookPayload where
  bizStatus : String
  merchantTradeNo : String
deriving DecidableEq

inductive WebhookResp where
  | success
  | fail
deriving DecidableEq

/-- JavaScript String.prototype.split on a single separator character,
on the character list of the string (so that it evaluates inside the
kernel). -/
def splitOnChar (c : Char) : List Char → List (List Char)
  | [] => [[]]
  | x :: xs =>
    match splitOnChar c xs, x == c with
    | r, true => [] :: r
    | [], false => [[x]]
    | y :: ys, false => (x :: y) :: ys

/-- Numeric reading of a text fragment, accumulator form. -/
def parseDecAux : List Char → Nat → Option Nat
  | [], acc => some acc
  | c :: cs, acc =>
    if c.isDigit then parseDecAux cs (acc * 10 + (c.toNat - 48)) else none

/-- A non-empty all-digit fragment denotes a number; anything else does not
convert. -/
def parseDecimal : List Char → Option Nat
  | [] => none
  | c :: cs => parseDecAux (c :: cs) 0

/-- The three fates of the extracted trade reference at the store boundary. -/
inductive TradeRef where
  | resolved (oid : Nat)
  | noMatch
  | bindError
deriving DecidableEq

/-- merchantTradeNo.split('_')[1] and what binding it does:
* no second segment at all — split('_')[1] is undefined; sql.js bindValue
  has no case for undefined and throws before any write, so the handler's
  catch answers 500 FAIL (bindError);
* a second segment that is a decimal numeral — SQLite numeric affinity
  converts the bound text and it matches the INTEGER id column (resolved);
* any other second segment (empty or non-numeric text) — the text converts
  to no number and matches no INTEGER id row, so the UPDATEs touch nothing
  (noMatch). -/
def classifyTradeNo (s : String) : TradeRef :=
  match (splitOnChar ('_') s.data)[1]? with
  | none => TradeRef.bindError
  | some seg =>
    match parseDecimal seg with
    | some oid => TradeRef.resolved oid
    | none => TradeRef.noMatch

/-- POST /payments/webhook.  The signature-verification block is commented
out in the source, so the headers are read but never influence the result.
On PAY_SUCCESS with a resolvable reference the referenced order is set to
'processing' and EVERY transaction row of that order is set to 'verified'
(the UPDATE is keyed on order_id alone); a reference whose second segment
exists but matches no integer id updates nothing and still answers success;
a reference with no second segment makes sql.js throw on the undefined
bind, and the catch block answers FAIL (500) with no state change. -/
def webhook (db : DB) (_headers : WebhookHeaders) (p : WebhookPayload) :
    WebhookResp × DB :=
  if p.bizStatus = "PAY_SUCCESS" then
    match classifyTradeNo p.merchantTradeNo with
    | TradeRef.resolved oid =>
      (WebhookResp.success,
        { db with
          orders := db.orders.map (fun o =>
            if o.id == oid then { o with status := OrderStatus.processing } else o),
          transactions := db.transactions.map (fun t =>
            if t.order_id == oid then { t with status := TxStatus.verified } else t) })
    | TradeRef.noMatch => (WebhookResp.success, db)
    | TradeRef.bindError => (WebhookResp.fail, db)
  else (WebhookResp.success, db)

/-! ## Catalog routes (src/routes/products.js) -/

inductive CatalogError where
  | missingFields
deriving DecidableEq

structure CreateProductReq where
  name : String
  description : Option String
  price : Int
  stock : Int
  category_id : Nat
  image_url : Option String
deriving DecidableEq

structure UpdateProductReq where
  name : String
  description : Option String
  price : Int
  stock : Int
  category_id : Nat
  image_url : Option String
  is_active : Bool
deriving DecidableEq

/-- GET /products: active products joined with their category name, with an
optional category filter.  (Result ordering by created_at is not modelled;
no claim depends on it.) -/
def listProducts (db : DB) (categoryFilter : Option Nat) :
    List (Product × String) :=
  (db.products.filter (fun p =>
      p.is_active &&
      (match categoryFilter with
       | some c => p.category_id == c
       | none => true))).filterMap
    (fun p => (db.categories.find? (fun c => c.id == p.category_id)).map
      (fun c => (p, c.name)))

/-- POST /products (superuser): presence validation on name, price and
category, then insert with stock defaulting to 0 and is_active defaulting
to 1. -/
def createProduct (db : DB) (req : CreateProductReq) :
    Except CatalogError Nat × DB :=
  if req.name = "" ∨ req.price = 0 ∨ req.category_id = 0 then
    (Except.error CatalogError.missingFields, db)
  else
    let p : Product :=
      { id := db.nextProductId, name := req.name, description := (req.description).getD (""),
        price := req.price, stock := req.stock, category_id := req.category_id,
        image_url := req.image_url, is_active := true }
    (Except.ok db.nextProductId,
      { db with products := db.products ++ [p],
                nextProductId := db.nextProductId + 1 })

/-- PUT /products/:id (superuser): unconditional overwrite of every column
with the request values. -/
def updateProduct (db : DB) (pid : Nat) (req : UpdateProductReq) : DB :=
  { db with products := db.products.map (fun p =>
      if p.id == pid then
        { p with
          name := req.name, description := (req.description).getD (""),
          price := req.price, stock := req.stock, category_id := req.category_id,
          image_url := req.image_url, is_active := req.is_active }
      else p) }

/-- DELETE /products/:id (superuser): soft delete, is_active := 0. -/
def deleteProduct (db : DB) (pid : Nat) : DB :=
  { db with products := db.products.map (fun p =>
      if p.id == pid then { p with is_active := false } else p) }

/-- The per-order item annotation used by GET /orders and GET /orders/:id:
each order_items row joined with the product name
(JOIN products p ON oi.product_id = p.id, no is_active filter). -/
def annotatedItems (db : DB) (oid : Nat) : List (OrderItem × Option String) :=
  (db.order_items.filter (fun it => it.order_id == oid)).map
    (fun it => (it, (db.products.find? (fun p => p.id == it.product_id)).map
      (fun p => p.name)))

/-! ## Auth and admin routes (src/routes/admin.js, auth routes) -/

inductive AdminError where
  | missingFields
  | duplicateEmail
  | notFound
  | invalidOperation
deriving DecidableEq

/-- Shared INSERT INTO users of the register and admin seller-creation
handlers (password arrives already bcrypt-hashed; hashing is an external
collaborator). -/
def insertUser (db : DB) (email pwHash : String) (role : Role)
    (wallet : Option String) : Except AdminError Nat × DB :=
  if email = "" ∨ pwHash = "" then (Except.error AdminError.missingFields, db)
  else
    match db.users.find? (fun u => u.email == email) with
    | some _ => (Except.error AdminError.duplicateEmail, db)
    | none =>
      let u : User :=
        { id := db.nextUserId, email := email, password := pwHash,
          role := role, binance_wallet := wallet, earnings := 0,
          is_active := true }
      (Except.ok db.nextUserId,
        { db with users := db.users ++ [u], nextUserId := db.nextUserId + 1 })

structure UpdateSellerReq where
  email : Option String
  password : Option String
  binance_wallet : Option String
  is_active : Option Bool
deriving DecidableEq

/-- The row image written by PUT /admin/sellers/:id, computed from the
previously fetched seller row: each falsy request field (absent or empty
string) falls back to the stored value, is_active falls back only when
undefined, and a truthy password is stored hashed. -/
def applySellerUpdate (hash : String → String) (req : UpdateSellerReq)
    (seller : User) (sid : Nat) (u : User) : User :=
  if u.id == sid then
    { u with
      email := match req.email with
        | some s => if s = "" then seller.email else s
        | none => seller.email,
      binance_wallet := match req.binance_wallet with
        | some s => if s = "" then seller.binance_wallet else some s
        | none => seller.binance_wallet,
      is_active := match req.is_active with
        | some b => b
        | none => seller.is_active,
      password := match req.password with
        | some s => if s = "" then seller.password else hash s
        | none => seller.password }
  else u

/-- PUT /admin/sellers/:id: fetch the seller row, then overwrite it with the
merged image. -/
def updateSeller (hash : String → String) (db : DB) (sid : Nat)
    (req : UpdateSellerReq) : Except AdminError Unit × DB :=
  match sellerById db sid with
  | none => (Except.error AdminError.notFound, db)
  | some seller =>
    (Except.ok (),
      { db with users := db.users.map (applySellerUpdate hash req seller sid) })

/-- DELETE /admin/sellers/:id: soft deactivation. -/
def deactivateSeller (db : DB) (sid : Nat) : DB :=
  { db with users := db.users.map (fun u =>
      if u.id == sid && u.role == Role.seller then { u with is_active := false }
      else u) }

/-- PUT /admin/sellers/:id/earnings: presence validation (0 is falsy, so a
zero amount is rejected but a negative one is accepted), seller lookup, then
earnings := earnings + amount (add) or amount (set). -/
def updateEarnings (db : DB) (sid : Nat) (amount : Int) (operation : String) :
    Except AdminError Int × DB :=
  if amount = 0 ∨ operation = "" then (Except.error AdminError.missingFields, db)
  else
    match sellerById db sid with
    | none => (Except.error AdminError.notFound, db)
    | some seller =>
      if operation = "add" then
        (Except.ok (seller.earnings + amount),
          { db with users := db.users.map (fun u =>
              if u.id == sid then { u with earnings := seller.earnings + amount }
              else u) })
      else if operation = "set" then
        (Except.ok amount,
          { db with users := db.users.map (fun u =>
              if u.id == sid then { u with earnings := amount } else u) })
      else (Except.error AdminError.invalidOperation, db)

/-- POST /admin/sellers/:id/sales: append a seller_earnings row and add the
same amount to users.earnings. -/
def assignSale (db : DB) (sid oid : Nat) (amount : Int) :
    Except AdminError Unit × DB :=
  if oid = 0 ∨ amount = 0 then (Except.error AdminError.missingFields, db)
  else
    match sellerById db sid with
    | none => (Except.error AdminError.notFound, db)
    | some _ =>
      (Except.ok (),
        { db with
          seller_earnings := db.seller_earnings ++
            [{ seller_id := sid, order_id := oid, amount := amount }],
          users := db.users.map (fun u =>
            if u.id == sid then { u with earnings := u.earnings + amount } else u) })

/-! ## The mutating operations of the HTTP surface as one action type -/

inductive Action where
  | create (buyerId : Nat) (req : CreateOrderReq)
  | setStatus (actorId oid : Nat) (status : String) (sellerParam : Option Nat)
  | payProof (buyerId oid : Nat) (pf txid : String)
  | payCreate (buyerId oid : Nat) (amount : Int) (prepayId : String)
  | hook (h : WebhookHeaders) (p : WebhookPayload)
  | register (email pwHash : String) (wallet : Option String)
  | newSeller (email pwHash : String) (wallet : Option String)
  | editSeller (hash : String → String) (sid : Nat) (req : UpdateSellerReq)
  | dropSeller (sid : Nat)
  | earn (sid : Nat) (amount : Int) (operation : String)
  | sale (sid oid : Nat) (amount : Int)
  | newProduct (req : CreateProductReq)
  | editProduct (pid : Nat) (req : UpdateProductReq)
  | dropProduct (pid : Nat)

/-- Store effect of one request. -/
def step (db : DB) : Action → DB
  | Action.create b r => (createOrder db b r).2
  | Action.setStatus a oid s sp => (updateOrderStatus db a oid s sp).2
  | Action.payProof b oid pf txid => (submitPaymentProof db b oid pf txid).2
  | Action.payCreate b oid amt pre => (paymentCreate db b oid amt pre).2
  | Action.hook h p => (webhook db h p).2
  | Action.register e pw w => (insertUser db e pw Role.buyer w).2
  | Action.newSeller e pw w => (insertUser db e pw Role.seller w).2
  | Action.editSeller hash sid req => (updateSeller hash db sid req).2
  | Action.dropSeller sid => deactivateSeller db sid
  | Action.earn sid amt op => (updateEarnings db sid amt op).2
  | Action.sale sid oid amt => (assignSale db sid oid amt).2
  | Action.newProduct req => (createProduct db req).2
  | Action.editProduct pid req => updateProduct db pid req
  | Action.dropProduct pid => deleteProduct db pid

/-! ## Concrete fixtures for evaluated theorems -/

instance {ε α : Type} [DecidableEq ε] [DecidableEq α] :
    DecidableEq (Except ε α) := fun x y =>
  match x, y with
  | Except.ok a, Except.ok b =>
    if h : a = b then isTrue (by rw [h]) else isFalse (by simp [h])
  | Except.error a, Except.error b =>
    if h : a = b then isTrue (by rw [h]) else isFalse (by simp [h])
  | Except.ok _, Except.error _ => isFalse (by simp)
  | Except.error _, Except.ok _ => isFalse (by simp)

def stockOf (db : DB) (pid : Nat) : Option Int :=
  (anyProduct db pid).map (fun p => p.stock)

def statusOf (db : DB) (oid : Nat) : Option OrderStatus :=
  (orderById db oid).map (fun o => o.status)

def sellerOf (db : DB) (oid : Nat) : Option (Option Nat) :=
  (orderById db oid).map (fun o => o.seller_id)

def earningsOf (db : DB) (uid : Nat) : Option Int :=
  (db.users.find? (fun u => u.id == uid)).map (fun u => u.earnings)

def txStatuses (db : DB) (oid : Nat) : List (Nat × TxStatus) :=
  (db.transactions.filter (fun t => t.order_id == oid)).map
    (fun t => (t.id, t.status))

def emptyDB : DB :=
  { users := [], categories := [], products := [], orders := [],
    order_items := [], transactions := [], seller_earnings := [],
    nextUserId := 1, nextProductId := 1, nextOrderId := 1, nextTxId := 1 }

def giftCard : Product :=
  { id := 1, name := "Amazon Gift Card", description := "gc", price := 55,
    stock := 2, category_id := 1, image_url := none, is_active := true }

def dbC1 : DB :=
  { emptyDB with
    users := [{ id := 9, email := "buyer@mail.test", password := "h",
                role := Role.buyer, binance_wallet := none, earnings := 0,
                is_active := true }],
    categories := [{ id := 1, name := "Gift Cards", description := "d" }],
    products := [giftCard],
    nextUserId := 10, nextProductId := 2 }

def reqC1 : CreateOrderReq :=
  { items := [{ product_id := 1, quantity := 2 }, { product_id := 1, quantity := 2 }],
    contact_name := "Ana", contact_email := "ana@mail.test",
    contact_phone := none, contact_info := none }

/-- C1: the order-creation stock check verifies every requested item against
the product stock as it stands BEFORE the order, and only afterwards runs
the per-item decrements; an order naming the same product twice therefore
passes the check (2 ≤ 2 twice, for a product with stock 2) and the two
decrements drive the stock to -2 < 0.  This single successful POST /orders
request refutes the claim that no sequence of successful order creations —
including one whose item list names the same product more than once — can
make a product's stock negative. -/
theorem c1_duplicate_item_oversell :
    (createOrder dbC1 9 reqC1).1 = Except.ok (1, 220) ∧
    stockOf (createOrder dbC1 9 reqC1).2 1 = some (-2) ∧
    ((-2 : Int) < 0) := by
  decide

def mkOrder (oid buyer : Nat) (st : OrderStatus) (total : Int) : Order :=
  { id := oid, buyer_id := buyer, seller_id := none, status := st,
    total_amount := total, contact_name := "Ana",
    contact_email := "ana@mail.test", contact_phone := none,
    contact_info := none, payment_proof := none, binance_txid := none }

def mkSeller (uid : Nat) (email : String) : User :=
  { id := uid, email := email, password := "h", role := Role.seller,
    binance_wallet := none, earnings := 0, is_active := true }

def dbC3 : DB :=
  { emptyDB with
    users := [mkSeller 7 ("s7@mail.test")],
    orders := [mkOrder 1 9 OrderStatus.completed 55],
    nextUserId := 8, nextOrderId := 2 }

/-- C3: 'completed' is not terminal in the code.  The status handler only
checks that the requested status is one of the four valid strings and that
the order exists; it never inspects the current status.  A PUT
/orders/1/status with body status='pending' against a completed order
succeeds and rewrites the status. -/
theorem c3_completed_not_terminal :
    statusOf dbC3 1 = some OrderStatus.completed ∧
    (updateOrderStatus dbC3 7 1 ("pending") none).1 = Except.ok () ∧
    statusOf (updateOrderStatus dbC3 7 1 ("pending") none).2 1 =
      some OrderStatus.pending := by
  decide

def dbC4 : DB :=
  { emptyDB with
    users := [mkSeller 2 ("a@mail.test"), mkSeller 3 ("b@mail.test")],
    orders := [mkOrder 1 9 OrderStatus.pending 55],
    nextUserId := 4, nextOrderId := 2 }

/-- C4: the claim operation is read-then-write with no conditional update
and no Conflict path.  Under the interleaving read A, read B, write A,
write B on the same pending unassigned order, both sellers' requests
validate against their snapshots and both writes run: both requests report
success and the later write silently overwrites the first seller's
assignment.  This refutes 'exactly one succeeds and the other fails with
Conflict'. -/
theorem c4_claim_race_both_succeed :
    (twoStatusRequests dbC4 2 3 1 ("processing") none none).1 = Except.ok () ∧
    (twoStatusRequests dbC4 2 3 1 ("processing") none none).2.1 = Except.ok () ∧
    sellerOf (twoStatusRequests dbC4 2 3 1 ("processing") none none).2.2 1 =
      some (some 3) ∧
    statusOf (twoStatusRequests dbC4 2 3 1 ("processing") none none).2.2 1 =
      some OrderStatus.processing := by
  decide

def txRow (tid oid : Nat) (st : TxStatus) : Transaction :=
  { id := tid, order_id := oid, user_id := 9, amount := 55,
    binance_txid := some ("TX"), payment_proof_url := some ("proof"),
    status := st }

def dbC5 : DB :=
  { emptyDB with
    orders := [mkOrder 1 9 OrderStatus.pending 55],
    transactions := [txRow 1 1 TxStatus.pending, txRow 2 1 TxStatus.pending],
    nextOrderId := 2, nextTxId := 3 }

def hdrX : WebhookHeaders :=
  { signature := "SIG", timestamp := "1700000000", nonce := "abcd" }

def payX : WebhookPayload :=
  { bizStatus := "PAY_SUCCESS", merchantTradeNo := "ORDER_1_1700000000" }

/-- A trade reference whose second segment exists but names no integer id:
the bound TEXT value matches no row and the handler silently succeeds. -/
def badPay : WebhookPayload :=
  { bizStatus := "PAY_SUCCESS", merchantTradeNo := "ORDER_XYZ" }

/-- C5 counterexample: the webhook UPDATE on transactions is keyed on
order_id alone, so for an order with two transactions BOTH become
'verified' — the earlier one does not keep its status — and a payload whose
merchantTradeNo carries a second segment ('XYZ') that resolves no order id
updates nothing yet still answers success instead of rejecting. -/
theorem c5_webhook_counterexample :
    txStatuses dbC5 1 = [(1, TxStatus.pending), (2, TxStatus.pending)] ∧
    txStatuses (webhook dbC5 hdrX payX).2 1 =
      [(1, TxStatus.verified), (2, TxStatus.verified)] ∧
    (webhook dbC5 hdrX badPay).1 = WebhookResp.success ∧
    (webhook dbC5 hdrX badPay).2 = dbC5 := by
  decide

/-- C5 as amended: on PAY_SUCCESS with a resolvable trade reference the
handler sets the referenced order's status to 'processing' and marks EVERY
transaction of that order 'verified'; a reference whose second segment
exists but resolves no integer id changes nothing and still answers success
(a silent no-op, not a rejection); only a reference with no second segment
at all is rejected — sql.js throws on binding the undefined value and the
handler answers FAIL with no state change. -/
theorem c5_webhook_amended (db : DB) (h : WebhookHeaders) (p : WebhookPayload)
    (hpay : p.bizStatus = "PAY_SUCCESS") :
    match classifyTradeNo p.merchantTradeNo with
    | TradeRef.resolved oid =>
      (webhook db h p).1 = WebhookResp.success ∧
      (∀ o ∈ (webhook db h p).2.orders, o.id = oid →
         o.status = OrderStatus.processing) ∧
      (∀ t ∈ (webhook db h p).2.transactions, t.order_id = oid →
         t.status = TxStatus.verified) ∧
      (webhook db h p).2.order_items = db.order_items ∧
      (webhook db h p).2.products = db.products ∧
      (webhook db h p).2.users = db.users
    | TradeRef.noMatch => webhook db h p = (WebhookResp.success, db)
    | TradeRef.bindError => webhook db h p = (WebhookResp.fail, db) := by
  cases href : classifyTradeNo p.merchantTradeNo with
  | noMatch => simp [webhook, hpay, href]
  | bindError => simp [webhook, hpay, href]
  | resolved oid =>
    refine ⟨?_, ?_, ?_, ?_, ?_, ?_⟩
    · simp [webhook, hpay, href]
    · intro o ho hid
      have ho2 : o ∈ db.orders.map (fun o =>
          if o.id == oid then { o with status := OrderStatus.processing }
          else o) := by
        simpa [webhook, hpay, href] using ho
      rcases List.mem_map.mp ho2 with ⟨o0, _, rfl⟩
      have hid0 : o0.id = oid := by
        by_cases h0 : o0.id = oid
        · exact h0
        · simp [h0] at hid
      simp [hid0]
    · intro t ht hid
      have ht2 : t ∈ db.transactions.map (fun t =>
          if t.order_id == oid then { t with status := TxStatus.verified }
          else t) := by
        simpa [webhook, hpay, href] using ht
      rcases List.mem_map.mp ht2 with ⟨t0, _, rfl⟩
      have hid0 : t0.order_id = oid := by
        by_cases h0 : t0.order_id = oid
        · exact h0
        · simp [h0] at hid
      simp [hid0]
    · simp [webhook, hpay, href]
    · simp [webhook, hpay, href]
    · simp [webhook, hpay, href]

/-! ## General list facts used below -/

theorem find?_map_of_pred_eq {α : Type} (f : α → α) (p : α → Bool)
    (hp : ∀ a, p (f a) = p a) (l : List α) :
    (l.map f).find? p = (l.find? p).map f := by
  induction l with
  | nil => rfl
  | cons a l ih =>
    simp only [List.map_cons, List.find?_cons, hp a]
    cases p a <;> simp [ih]

theorem find?_isSome_of_mem {α : Type} (p : α → Bool) (l : List α) (a : α)
    (ha : a ∈ l) (hpa : p a = true) : ∃ b, l.find? p = some b ∧ p b = true := by
  induction l with
  | nil => cases ha
  | cons x l ih =>
    by_cases hx : p x = true
    · exact ⟨x, by simp [List.find?_cons, hx], hx⟩
    · rcases List.mem_cons.mp ha with rfl | ha2
      · exact absurd hpa hx
      · rcases ih ha2 with ⟨b, hb, hpb⟩
        refine ⟨b, ?_, hpb⟩
        simp [List.find?_cons, Bool.of_not_eq_true hx, hb]

theorem earningsOf_users_map (db : DB) (sid : Nat) (w : Int) (u0 : User)
    (hfind : db.users.find? (fun u => u.id == sid) = some u0) :
    earningsOf { db with users := db.users.map (fun u =>
        if u.id == sid then { u with earnings := w } else u) } sid = some w := by
  show ((db.users.map (fun u =>
      if u.id == sid then { u with earnings := w } else u)).find?
      (fun u => u.id == sid)).map (fun u => u.earnings) = some w
  rw [find?_map_of_pred_eq]
  · rw [hfind]
    have hp := List.find?_some hfind
    simp only [beq_iff_eq] at hp
    simp [hp]
  · intro u
    by_cases h : u.id = sid <;> simp [h]

theorem c5_webhook_amended_witness :
    (webhook dbC5 hdrX payX).1 = WebhookResp.success :=
  (c5_webhook_amended dbC5 hdrX payX (by decide)).1

/-- C6: the webhook handler never verifies the provider signature — the
check is commented out in the source — so its result is literally
independent of the signature header, and a PAY_SUCCESS payload carried with
a signature that matches nothing is processed anyway: the referenced order
is moved to 'processing' and the handler answers success instead of the
claimed 401 rejection with no state change. -/
theorem c6_signature_never_checked :
    (∀ (db : DB) (h1 h2 : WebhookHeaders) (p : WebhookPayload),
       webhook db h1 p = webhook db h2 p) ∧
    statusOf (webhook dbC5
      { signature := "NOT-THE-HMAC", timestamp := "1", nonce := "2" }
      payX).2 1 = some OrderStatus.processing ∧
    (webhook dbC5
      { signature := "NOT-THE-HMAC", timestamp := "1", nonce := "2" }
      payX).1 = WebhookResp.success := by
  refine ⟨fun db h1 h2 p => rfl, ?_, ?_⟩ <;> decide

/-- C7: when the acting buyer owns the order, POST /orders/:id/payment-proof
answers success, appends exactly one pending transaction whose amount is the
order's total_amount, rewrites only payment_proof and binance_txid on orders
(every other order field, every other order, and every other table are
untouched). -/
theorem c7_payment_proof_frame (db : DB) (b oid : Nat) (pf txid : String)
    (order : Order)
    (hfind : db.orders.find? (fun o => o.id == oid && o.buyer_id == b) =
      some order) :
    (submitPaymentProof db b oid pf txid).1 = Except.ok () ∧
    (submitPaymentProof db b oid pf txid).2.transactions =
      db.transactions ++
        [{ id := db.nextTxId, order_id := oid, user_id := b,
           amount := order.total_amount, binance_txid := some txid,
           payment_proof_url := some pf, status := TxStatus.pending }] ∧
    (submitPaymentProof db b oid pf txid).2.orders =
      db.orders.map (proofUpd oid pf txid) ∧
    (∀ o : Order, (proofUpd oid pf txid o).id = o.id ∧
       (proofUpd oid pf txid o).status = o.status ∧
       (proofUpd oid pf txid o).buyer_id = o.buyer_id ∧
       (proofUpd oid pf txid o).seller_id = o.seller_id ∧
       (proofUpd oid pf txid o).total_amount = o.total_amount ∧
       (proofUpd oid pf txid o).contact_name = o.contact_name ∧
       (proofUpd oid pf txid o).contact_email = o.contact_email) ∧
    (∀ o : Order, o.id ≠ oid → proofUpd oid pf txid o = o) ∧
    (submitPaymentProof db b oid pf txid).2.products = db.products ∧
    (submitPaymentProof db b oid pf txid).2.users = db.users ∧
    (submitPaymentProof db b oid pf txid).2.order_items = db.order_items ∧
    (submitPaymentProof db b oid pf txid).2.seller_earnings =
      db.seller_earnings := by
  refine ⟨?_, ?_, ?_, ?_, ?_, ?_, ?_, ?_, ?_⟩
  · simp [submitPaymentProof, hfind]
  · simp [submitPaymentProof, hfind]
  · simp [submitPaymentProof, hfind]
  · intro o
    by_cases h : o.id = oid <;> simp [proofUpd, h]
  · intro o h
    simp [proofUpd, h]
  · simp [submitPaymentProof, hfind]
  · simp [submitPaymentProof, hfind]
  · simp [submitPaymentProof, hfind]
  · simp [submitPaymentProof, hfind]

def dbC7 : DB :=
  { emptyDB with
    users := [{ id := 9, email := "buyer@mail.test", password := "h",
                role := Role.buyer, binance_wallet := none, earnings := 0,
                is_active := true }],
    orders := [mkOrder 1 9 OrderStatus.pending 55],
    nextUserId := 10, nextOrderId := 2 }

theorem c7_payment_proof_frame_witness :
    (submitPaymentProof dbC7 9 1 ("proof-img") ("0xabc")).1 = Except.ok () :=
  (c7_payment_proof_frame dbC7 9 1 ("proof-img") ("0xabc")
    (mkOrder 1 9 OrderStatus.pending 55) (by decide)).1

def dbC8 : DB :=
  { emptyDB with
    users := [{ mkSeller 2 ("s@mail.test") with earnings := 5 }],
    nextUserId := 3 }

/-- C8 counterexample: PUT /admin/sellers/:id/earnings validates only the
presence of amount and operation (0 is falsy), never the sign, so the
accepted request add(-10) against a seller with earnings 5 leaves the
seller's cumulative earnings at -5 < 0, refuting the non-negativity claim. -/
theorem c8_negative_earnings_counterexample :
    (updateEarnings dbC8 2 (-10) ("add")).1 = Except.ok (-5) ∧
    earningsOf (updateEarnings dbC8 2 (-10) ("add")).2 2 = some (-5) ∧
    ((-5 : Int) < 0) := by
  decide

/-- C8 as amended: an accepted earnings update stores exactly
seller.earnings + amount (operation 'add') or amount (operation 'set') as
the seller's new earnings; the result is non-negative exactly when that
computed value is — amounts are not sign-checked, so only requests whose
computed value is ≥ 0 preserve the non-negativity invariant. -/
theorem c8_earnings_formula (db : DB) (sid : Nat) (amount : Int)
    (op : String) (v : Int) (db2 : DB)
    (hrun : updateEarnings db sid amount op = (Except.ok v, db2)) :
    earningsOf db2 sid = some v ∧
    (∀ seller, sellerById db sid = some seller →
       (op = "add" → v = seller.earnings + amount) ∧
       (op = "set" → v = amount)) ∧
    (0 ≤ v → ∃ e, earningsOf db2 sid = some e ∧ 0 ≤ e) := by
  unfold updateEarnings at hrun
  by_cases hval : amount = 0 ∨ op = ""
  · rw [if_pos hval] at hrun
    simp [Prod.ext_iff] at hrun
  rw [if_neg hval] at hrun
  cases hfind : sellerById db sid with
  | none =>
    rw [hfind] at hrun
    simp [Prod.ext_iff] at hrun
  | some seller =>
    simp only [hfind] at hrun
    have hsid : seller.id = sid := by
      have hp := List.find?_some hfind
      simp only [Bool.and_eq_true, beq_iff_eq] at hp
      exact hp.1
    have hmem : seller ∈ db.users := List.mem_of_find?_eq_some hfind
    have hfind0 : ∃ u0, db.users.find? (fun u => u.id == sid) = some u0 ∧
        (u0.id == sid) = true :=
      find?_isSome_of_mem (fun u => u.id == sid) db.users seller hmem
        (by simp [hsid])
    rcases hfind0 with ⟨u0, hu0, _⟩
    by_cases hadd : op = "add"
    · rw [if_pos hadd] at hrun
      injection hrun with h1 h2
      injection h1 with hv
      subst hv
      subst h2
      have hearn : earningsOf
          { db with users := db.users.map (fun u =>
              if u.id == sid then { u with earnings := seller.earnings + amount }
              else u) } sid = some (seller.earnings + amount) :=
        earningsOf_users_map db sid (seller.earnings + amount) u0 hu0
      refine ⟨hearn, ?_, fun h0 => ⟨seller.earnings + amount, hearn, h0⟩⟩
      intro s2 h2
      injection h2 with hs
      subst hs
      exact ⟨fun _ => rfl, fun hset => absurd (hadd.symm.trans hset) (by decide)⟩
    · rw [if_neg hadd] at hrun
      by_cases hset : op = "set"
      · rw [if_pos hset] at hrun
        injection hrun with h1 h2
        injection h1 with hv
        subst hv
        subst h2
        have hearn : earningsOf
            { db with users := db.users.map (fun u =>
                if u.id == sid then { u with earnings := amount } else u) }
            sid = some amount :=
          earningsOf_users_map db sid amount u0 hu0
        refine ⟨hearn, ?_, fun h0 => ⟨amount, hearn, h0⟩⟩
        intro s2 h2
        injection h2 with hs
        subst hs
        exact ⟨fun hadd2 => absurd (hset.symm.trans hadd2) (by decide),
               fun _ => rfl⟩
      · rw [if_neg hset] at hrun
        simp [Prod.ext_iff] at hrun

def dbC8add : DB :=
  { emptyDB with
    users := [{ mkSeller 2 ("s2@mail.test") with earnings := 5 }],
    nextUserId := 3 }

theorem c8_earnings_formula_witness :
    earningsOf (updateEarnings dbC8add 2 7 ("add")).2 2 = some 12 :=
  (c8_earnings_formula dbC8add 2 7 ("add") 12
    (updateEarnings dbC8add 2 7 ("add")).2 (by decide)).1

/-- Soft deletion only flips is_active, so a name lookup by product id is
unaffected by it. -/
theorem find?_name_deleteProduct (ps : List Product) (pid pid2 : Nat) :
    ((ps.map (fun p => if p.id == pid then { p with is_active := false }
        else p)).find? (fun p => p.id == pid2)).map (fun p => p.name) =
    (ps.find? (fun p => p.id == pid2)).map (fun p => p.name) := by
  rw [find?_map_of_pred_eq]
  · cases h : ps.find? (fun p => p.id == pid2) with
    | none => rfl
    | some p => by_cases hp : p.id = pid <;> simp [hp]
  · intro p
    by_cases hp : p.id = pid <;> simp [hp]

/-- C9: after the soft delete of a product, no row of listProducts carries
its id (the listing filters on is_active), while the item annotation of any
order — the JOIN of order_items with product names that GET /orders and
GET /orders/:id perform — is exactly what it was before the deletion, so
historical order items still resolve the product and its name. -/
theorem c9_soft_delete_roundtrip (db : DB) (pid : Nat) (cf : Option Nat)
    (oid : Nat) :
    (∀ pr ∈ listProducts (deleteProduct db pid) cf, pr.1.id ≠ pid) ∧
    annotatedItems (deleteProduct db pid) oid = annotatedItems db oid := by
  constructor
  · intro pr hpr hid
    unfold listProducts deleteProduct at hpr
    rcases List.mem_filterMap.mp hpr with ⟨p, hp, hmap⟩
    rcases Option.map_eq_some.mp hmap with ⟨c, _, hpr1⟩
    have hp2 := List.mem_filter.mp hp
    rcases List.mem_map.mp hp2.1 with ⟨p0, _, rfl⟩
    have hact : (if p0.id == pid then { p0 with is_active := false }
        else p0).is_active = true := by
      have := hp2.2
      simp only [Bool.and_eq_true] at this
      exact this.1
    have hid2 : (if p0.id == pid then { p0 with is_active := false }
        else p0).id = pid := by
      rw [← hpr1] at hid
      exact hid
    by_cases h0 : p0.id = pid
    · simp [h0] at hact
    · simp [h0] at hid2
  · unfold annotatedItems deleteProduct
    apply List.map_congr_left
    intro it _
    rw [find?_name_deleteProduct]

def dbC9 : DB :=
  { emptyDB with
    categories := [{ id := 1, name := "Gift Cards", description := "d" }],
    products := [giftCard],
    orders := [mkOrder 1 9 OrderStatus.pending 110],
    order_items := [{ order_id := 1, product_id := 1, quantity := 2, price := 55 }],
    nextProductId := 2, nextOrderId := 2 }

theorem c9_soft_delete_roundtrip_witness :
    annotatedItems (deleteProduct dbC9 1) 1 = annotatedItems dbC9 1 :=
  (c9_soft_delete_roundtrip dbC9 1 none 1).2

/-- C10: a successful PUT /admin/sellers/:id keeps every stored field whose
request value is omitted or falsy: an absent or empty email, wallet or
password leaves the stored one in place, an undefined is_active keeps the
stored flag, while truthy values overwrite (the password after hashing);
ids, earnings and roles are never touched, rows with other ids are
unchanged, and no other table is written. -/
theorem c10_seller_update_frame (hash : String → String) (db : DB)
    (sid : Nat) (req : UpdateSellerReq) (seller : User)
    (hfind : sellerById db sid = some seller) :
    (updateSeller hash db sid req).1 = Except.ok () ∧
    (updateSeller hash db sid req).2.users =
      db.users.map (applySellerUpdate hash req seller sid) ∧
    (∀ u : User, u.id ≠ sid → applySellerUpdate hash req seller sid u = u) ∧
    ((req.email = none ∨ req.email = some ("")) →
       (applySellerUpdate hash req seller sid seller).email = seller.email) ∧
    (∀ s, req.email = some s → s ≠ "" →
       (applySellerUpdate hash req seller sid seller).email = s) ∧
    ((req.binance_wallet = none ∨ req.binance_wallet = some ("")) →
       (applySellerUpdate hash req seller sid seller).binance_wallet =
         seller.binance_wallet) ∧
    (∀ s, req.binance_wallet = some s → s ≠ "" →
       (applySellerUpdate hash req seller sid seller).binance_wallet = some s) ∧
    ((req.password = none ∨ req.password = some ("")) →
       (applySellerUpdate hash req seller sid seller).password =
         seller.password) ∧
    (∀ s, req.password = some s → s ≠ "" →
       (applySellerUpdate hash req seller sid seller).password = hash s) ∧
    (req.is_active = none →
       (applySellerUpdate hash req seller sid seller).is_active =
         seller.is_active) ∧
    (∀ b, req.is_active = some b →
       (applySellerUpdate hash req seller sid seller).is_active = b) ∧
    (∀ u : User, (applySellerUpdate hash req seller sid u).id = u.id ∧
       (applySellerUpdate hash req seller sid u).earnings = u.earnings ∧
       (applySellerUpdate hash req seller sid u).role = u.role) ∧
    (updateSeller hash db sid req).2.orders = db.orders ∧
    (updateSeller hash db sid req).2.order_items = db.order_items ∧
    (updateSeller hash db sid req).2.products = db.products ∧
    (updateSeller hash db sid req).2.transactions = db.transactions := by
  have hsid : seller.id = sid := by
    have hp := List.find?_some hfind
    simp only [Bool.and_eq_true, beq_iff_eq] at hp
    exact hp.1
  refine ⟨by simp [updateSeller, hfind], by simp [updateSeller, hfind],
    ?_, ?_, ?_, ?_, ?_, ?_, ?_, ?_, ?_, ?_,
    by simp [updateSeller, hfind], by simp [updateSeller, hfind],
    by simp [updateSeller, hfind], by simp [updateSeller, hfind]⟩
  · intro u hu
    simp [applySellerUpdate, hu]
  · rintro (he | he) <;> simp [applySellerUpdate, hsid, he]
  · intro s hs hne
    simp [applySellerUpdate, hsid, hs, hne]
  · rintro (hw | hw) <;> simp [applySellerUpdate, hsid, hw]
  · intro s hs hne
    simp [applySellerUpdate, hsid, hs, hne]
  · rintro (hp | hp) <;> simp [applySellerUpdate, hsid, hp]
  · intro s hs hne
    simp [applySellerUpdate, hsid, hs, hne]
  · intro ha
    simp [applySellerUpdate, hsid, ha]
  · intro b hb
    simp [applySellerUpdate, hsid, hb]
  · intro u
    by_cases hu : u.id = sid <;> simp [applySellerUpdate, hu]

def dbC10 : DB :=
  { emptyDB with
    users := [{ mkSeller 2 ("s2@mail.test") with
                binance_wallet := some ("WALLET-A"), earnings := 5 }],
    nextUserId := 3 }

def reqC10 : UpdateSellerReq :=
  { email := some ("new@mail.test"), password := none,
    binance_wallet := some (""), is_active := none }

theorem c10_seller_update_frame_witness :
    (updateSeller (fun s => s) dbC10 2 reqC10).1 = Except.ok () :=
  (c10_seller_update_frame (fun s => s) dbC10 2 reqC10
    { mkSeller 2 ("s2@mail.test") with
      binance_wallet := some ("WALLET-A"), earnings := 5 } (by decide)).1

/-! ## Order-total invariant (C2): definitions -/

/-- The order_items rows of one order. -/
def itemsFor (db : DB) (oid : Nat) : List OrderItem :=
  db.order_items.filter (fun it => it.order_id == oid)

/-- The total_amount of every orders row carrying a given id (a list, so
that no uniqueness assumption is needed to state preservation). -/
def totalsFor (db : DB) (oid : Nat) : List Int :=
  db.orders.filterMap (fun o => if o.id == oid then some o.total_amount else none)

/-- Sum of quantity × price over an order's items. -/
def itemsSum (db : DB) (oid : Nat) : Int :=
  ((itemsFor db oid).map (fun it => it.quantity * it.price)).sum

/-- Store sanity carried through every operation: ids issued by the
AUTOINCREMENT counters bound every stored order id, order_items order_id
and product id, and product ids are pairwise distinct (they are a primary
key). -/
def WF (db : DB) : Prop :=
  (∀ o ∈ db.orders, o.id < db.nextOrderId) ∧
  (∀ it ∈ db.order_items, it.order_id < db.nextOrderId) ∧
  (db.products.map (fun p => p.id)).Nodup ∧
  (∀ p ∈ db.products, p.id < db.nextProductId)

instance (db : DB) : Decidable (WF db) := by
  unfold WF
  infer_instance

/-- What one step must preserve about a previously created order oid. -/
def FramePreserved (db db2 : DB) (oid : Nat) : Prop :=
  WF db2 ∧ db.nextOrderId ≤ db2.nextOrderId ∧
  itemsFor db2 oid = itemsFor db oid ∧
  totalsFor db2 oid = totalsFor db oid

/-! ## Order-total invariant (C2): list toolbox -/

theorem filter_eq_nil_of_all {α : Type} (p : α → Bool) (l : List α)
    (h : ∀ a ∈ l, p a = false) : l.filter p = [] := by
  induction l with
  | nil => rfl
  | cons a l ih =>
    rw [List.filter_cons, h a (List.mem_cons_self a l)]
    exact ih (fun x hx => h x (List.mem_cons_of_mem a hx))

theorem filter_eq_self_of_all {α : Type} (p : α → Bool) (l : List α)
    (h : ∀ a ∈ l, p a = true) : l.filter p = l := by
  induction l with
  | nil => rfl
  | cons a l ih =>
    rw [List.filter_cons, h a (List.mem_cons_self a l)]
    simp only [ite_true]
    rw [ih (fun x hx => h x (List.mem_cons_of_mem a hx))]

theorem filterMap_congr_mem {α β : Type} (f g : α → Option β) (l : List α)
    (h : ∀ a ∈ l, f a = g a) : l.filterMap f = l.filterMap g := by
  induction l with
  | nil => rfl
  | cons a l ih =>
    rw [List.filterMap_cons, List.filterMap_cons, h a (List.mem_cons_self a l),
      ih (fun x hx => h x (List.mem_cons_of_mem a hx))]

theorem filterMap_eq_nil_of_all {α β : Type} (f : α → Option β) (l : List α)
    (h : ∀ a ∈ l, f a = none) : l.filterMap f = [] := by
  induction l with
  | nil => rfl
  | cons a l ih =>
    rw [List.filterMap_cons, h a (List.mem_cons_self a l)]
    exact ih (fun x hx => h x (List.mem_cons_of_mem a hx))

theorem map_proj_of_pres {α β : Type} (g : α → α) (f : α → β)
    (hg : ∀ a, f (g a) = f a) (l : List α) : (l.map g).map f = l.map f := by
  rw [List.map_map]
  exact List.map_congr_left (fun a _ => hg a)

theorem mem_map_id_bound {α : Type} (f : α → Nat) (l1 l2 : List α)
    (h : l1.map f = l2.map f) (n : Nat) (hb : ∀ x ∈ l2, f x < n) :
    ∀ x ∈ l1, f x < n := by
  intro x hx
  have hm : f x ∈ l1.map f := List.mem_map_of_mem f hx
  rw [h] at hm
  rcases List.mem_map.mp hm with ⟨y, hy, hxy⟩
  rw [← hxy]
  exact hb y hy

theorem nodup_append_singleton {α : Type} (l : List α) (a : α)
    (h : l.Nodup) (ha : a ∉ l) : (l ++ [a]).Nodup := by
  refine List.Nodup.append h (List.nodup_singleton a) ?_
  intro x hx hxa
  rw [List.mem_singleton] at hxa
  exact ha (hxa ▸ hx)

/-- totalsFor only sees the id and total_amount of each row, so any
rewriting of the orders list that preserves those two fields preserves it. -/
theorem totalsForL_map (os : List Order) (g : Order → Order) (oid : Nat)
    (hg : ∀ o, (g o).id = o.id ∧ (g o).total_amount = o.total_amount) :
    (os.map g).filterMap
      (fun o => if o.id == oid then some o.total_amount else none) =
    os.filterMap (fun o => if o.id == oid then some o.total_amount else none) := by
  rw [List.filterMap_map]
  refine filterMap_congr_mem _ _ os (fun o _ => ?_)
  show (if (g o).id == oid then some (g o).total_amount else none) = _
  rw [(hg o).1, (hg o).2]

theorem priceOfL_decStock (ps : List Product) (pid : Nat) (q : Int)
    (pid2 : Nat) : priceOfL (decStock ps pid q) pid2 = priceOfL ps pid2 := by
  unfold priceOfL decStock
  rw [find?_map_of_pred_eq _ _
    (fun p => by by_cases h : p.id = pid <;> simp [h])]
  cases ps.find? (fun p => p.id == pid2) with
  | none => rfl
  | some p => by_cases h : p.id = pid <;> simp [h]

theorem decStock_map_id (ps : List Product) (pid : Nat) (q : Int) :
    (decStock ps pid q).map (fun p => p.id) = ps.map (fun p => p.id) :=
  map_proj_of_pres _ _
    (fun p => by by_cases h : p.id = pid <;> simp [h]) ps

/-- Under distinct product ids, a hit of the active-only lookup is also the
hit of the unfiltered lookup (an inactive row cannot shadow it). -/
theorem find?_active_imp_any (ps : List Product)
    (hnd : (ps.map (fun p => p.id)).Nodup) (pid : Nat) (p : Product)
    (h : ps.find? (fun q => q.id == pid && q.is_active) = some p) :
    ps.find? (fun q => q.id == pid) = some p := by
  induction ps with
  | nil => simp at h
  | cons a l ih =>
    rw [List.map_cons, List.nodup_cons] at hnd
    by_cases ha : a.id = pid
    · cases hact : a.is_active with
      | true =>
        rw [List.find?_cons_of_pos _ (by simp [ha, hact])] at h
        rw [List.find?_cons_of_pos _ (by simp [ha])]
        exact h
      | false =>
        rw [List.find?_cons_of_neg _ (by simp [hact])] at h
        have hp : p ∈ l := List.mem_of_find?_eq_some h
        have hpid : p.id = pid := by
          have := List.find?_some h
          simp only [Bool.and_eq_true, beq_iff_eq] at this
          exact this.1
        refine absurd (List.mem_map_of_mem (fun p => p.id) hp) ?_
        show p.id ∉ List.map (fun p => p.id) l
        rw [hpid, ← ha]
        exact hnd.1
    · rw [List.find?_cons_of_neg _ (by simp [ha])] at h
      rw [List.find?_cons_of_neg _ (by simp [ha])]
      exact ih hnd.2 h

/-! ## Order-total invariant (C2): what order creation writes -/

/-- The order_items row the insertion loop writes for one requested item. -/
def builtItem (ps : List Product) (oid : Nat) (it : ReqItem) : OrderItem :=
  { order_id := oid, product_id := it.product_id, quantity := it.quantity,
    price := priceOfL ps it.product_id }

theorem builtItem_decStock (ps : List Product) (pid : Nat) (q : Int)
    (oid : Nat) (it : ReqItem) :
    builtItem (decStock ps pid q) oid it = builtItem ps oid it := by
  unfold builtItem
  rw [priceOfL_decStock]

theorem applyItems_cons (oid : Nat) (db : DB) (it : ReqItem)
    (rest : List ReqItem) :
    applyItems oid db (it :: rest) =
    applyItems oid
      { db with
        order_items := db.order_items ++ [builtItem db.products oid it],
        products := decStock db.products it.product_id it.quantity } rest := rfl

theorem applyItems_spec (oid : Nat) (items : List ReqItem) : ∀ db : DB,
    (applyItems oid db items).orders = db.orders ∧
    (applyItems oid db items).products.map (fun p => p.id) =
      db.products.map (fun p => p.id) ∧
    (applyItems oid db items).order_items =
      db.order_items ++ items.map (builtItem db.products oid) ∧
    (applyItems oid db items).nextOrderId = db.nextOrderId ∧
    (applyItems oid db items).nextProductId = db.nextProductId ∧
    (applyItems oid db items).users = db.users ∧
    (applyItems oid db items).transactions = db.transactions ∧
    (applyItems oid db items).seller_earnings = db.seller_earnings := by
  induction items with
  | nil =>
    intro db
    exact ⟨rfl, rfl, by simp [applyItems], rfl, rfl, rfl, rfl, rfl⟩
  | cons it rest ih =>
    intro db
    rw [applyItems_cons]
    rcases ih { db with
        order_items := db.order_items ++ [builtItem db.products oid it],
        products := decStock db.products it.product_id it.quantity } with
      ⟨h1, h2, h3, h4, h5, h6, h7, h8⟩
    refine ⟨h1, ?_, ?_, h4, h5, h6, h7, h8⟩
    · rw [h2]
      exact decStock_map_id db.products it.product_id it.quantity
    · rw [h3]
      have hmap : rest.map (builtItem
          (decStock db.products it.product_id it.quantity) oid) =
          rest.map (builtItem db.products oid) :=
        List.map_congr_left (fun x _ => builtItem_decStock _ _ _ _ _)
      show db.order_items ++ [builtItem db.products oid it] ++ _ = _
      rw [hmap, List.append_assoc, List.singleton_append, List.map_cons]

theorem checkTotal_sum (db : DB)
    (hnd : (db.products.map (fun p => p.id)).Nodup) :
    ∀ (items : List ReqItem) (total : Int),
    checkTotal db items = Except.ok total →
    total = (items.map (fun it =>
      it.quantity * priceOfL db.products it.product_id)).sum := by
  intro items
  induction items with
  | nil =>
    intro total h
    injection h with h0
    rw [← h0]
    rfl
  | cons it rest ih =>
    intro total h
    unfold checkTotal at h
    cases hap : activeProduct db it.product_id with
    | none =>
      simp only [hap] at h
      cases h
    | some p =>
      simp only [hap] at h
      by_cases hstock : p.stock < it.quantity
      · rw [if_pos hstock] at h
        cases h
      · rw [if_neg hstock] at h
        cases hr : checkTotal db rest with
        | error e =>
          rw [hr] at h
          simp [Except.map] at h
        | ok t2 =>
          rw [hr] at h
          simp only [Except.map] at h
          injection h with h2
          have hany : db.products.find? (fun q2 => q2.id == it.product_id) =
              some p :=
            find?_active_imp_any db.products hnd it.product_id p hap
          have hpr : priceOfL db.products it.product_id = p.price := by
            unfold priceOfL
            rw [hany]
          rw [← h2, List.map_cons, List.sum_cons, ← ih t2 hr, hpr, mul_comm]

theorem createOrder_err (db : DB) (b : Nat) (req : CreateOrderReq)
    (e : OrderError) (db2 : DB)
    (h : createOrder db b req = (Except.error e, db2)) : db2 = db := by
  unfold createOrder at h
  by_cases h1 : req.items.isEmpty
  · rw [if_pos h1] at h
    injection h with _ hdb
    exact hdb.symm
  rw [if_neg h1] at h
  by_cases hc : req.contact_name = "" ∨ req.contact_email = ""
  · rw [if_pos hc] at h
    injection h with _ hdb
    exact hdb.symm
  rw [if_neg hc] at h
  cases hct : checkTotal db req.items with
  | error e2 =>
    simp only [hct] at h
    injection h with _ hdb
    exact hdb.symm
  | ok t =>
    simp only [hct] at h
    injection h with hres _
    cases hres

theorem createOrder_ok_parts (db : DB) (b : Nat) (req : CreateOrderReq)
    (oid : Nat) (total : Int) (db2 : DB)
    (h : createOrder db b req = (Except.ok (oid, total), db2)) :
    oid = db.nextOrderId ∧
    checkTotal db req.items = Except.ok total ∧
    db2.orders = db.orders ++
      [{ id := db.nextOrderId, buyer_id := b, seller_id := none,
         status := OrderStatus.pending, total_amount := total,
         contact_name := req.contact_name, contact_email := req.contact_email,
         contact_phone := req.contact_phone, contact_info := req.contact_info,
         payment_proof := none, binance_txid := none }] ∧
    db2.order_items = db.order_items ++
      req.items.map (builtItem db.products db.nextOrderId) ∧
    db2.products.map (fun p => p.id) = db.products.map (fun p => p.id) ∧
    db2.nextOrderId = db.nextOrderId + 1 ∧
    db2.nextProductId = db.nextProductId := by
  unfold createOrder at h
  by_cases h1 : req.items.isEmpty
  · rw [if_pos h1] at h
    injection h with hres _
    cases hres
  rw [if_neg h1] at h
  by_cases hc : req.contact_name = "" ∨ req.contact_email = ""
  · rw [if_pos hc] at h
    injection h with hres _
    cases hres
  rw [if_neg hc] at h
  cases hct : checkTotal db req.items with
  | error e2 =>
    simp only [hct] at h
    injection h with hres _
    cases hres
  | ok t =>
    simp only [hct] at h
    injection h with hres hdb
    injection hres with hpair
    injection hpair with hoid htot
    subst hoid
    subst htot
    subst hdb
    rcases applyItems_spec db.nextOrderId req.items
        { db with
          orders := db.orders ++
            [{ id := db.nextOrderId, buyer_id := b, seller_id := none,
               status := OrderStatus.pending, total_amount := t,
               contact_name := req.contact_name,
               contact_email := req.contact_email,
               contact_phone := req.contact_phone,
               contact_info := req.contact_info,
               payment_proof := none, binance_txid := none }],
          nextOrderId := db.nextOrderId + 1 } with
      ⟨g1, g2, g3, g4, g5, _, _, _⟩
    exact ⟨rfl, rfl, g1, g3, g2, g4, g5⟩

theorem createOrder_created (db : DB) (b : Nat) (req : CreateOrderReq)
    (oid : Nat) (total : Int) (db2 : DB) (hwf : WF db)
    (h : createOrder db b req = (Except.ok (oid, total), db2)) :
    totalsFor db2 oid = [total] ∧
    itemsFor db2 oid = req.items.map (builtItem db.products oid) ∧
    itemsSum db2 oid = total ∧
    WF db2 ∧
    db2.nextOrderId = db.nextOrderId + 1 ∧
    oid < db2.nextOrderId := by
  rcases createOrder_ok_parts db b req oid total db2 h with
    ⟨hoid, hct, ho, hoi, hpid, hnext, hnpid⟩
  obtain ⟨w1, w2, w3, w4⟩ := hwf
  subst hoid
  have htotals : totalsFor db2 db.nextOrderId = [total] := by
    unfold totalsFor
    rw [ho, List.filterMap_append]
    have hold : db.orders.filterMap (fun o =>
        if o.id == db.nextOrderId then some o.total_amount else none) = [] :=
      filterMap_eq_nil_of_all _ _ (fun o hoo => by
        simp [Nat.ne_of_lt (w1 o hoo)])
    rw [hold]
    simp
  have hitems : itemsFor db2 db.nextOrderId =
      req.items.map (builtItem db.products db.nextOrderId) := by
    unfold itemsFor
    rw [hoi, List.filter_append]
    have hold : db.order_items.filter
        (fun it => it.order_id == db.nextOrderId) = [] :=
      filter_eq_nil_of_all _ _ (fun it hit => by
        simp [Nat.ne_of_lt (w2 it hit)])
    have hnew : (req.items.map (builtItem db.products db.nextOrderId)).filter
        (fun it => it.order_id == db.nextOrderId) =
        req.items.map (builtItem db.products db.nextOrderId) :=
      filter_eq_self_of_all _ _ (fun it hit => by
        rcases List.mem_map.mp hit with ⟨x, _, rfl⟩
        simp [builtItem])
    rw [hold, hnew, List.nil_append]
  refine ⟨htotals, hitems, ?_, ⟨?_, ?_, ?_, ?_⟩, hnext, ?_⟩
  · unfold itemsSum
    rw [hitems, List.map_map]
    exact (checkTotal_sum db w3 req.items total hct).symm
  · intro o hoo
    rw [ho] at hoo
    rw [hnext]
    rcases List.mem_append.mp hoo with h2 | h2
    · exact Nat.lt_succ_of_lt (w1 o h2)
    · rw [List.mem_singleton] at h2
      subst h2
      exact Nat.lt_succ_self _
  · intro it hit
    rw [hoi] at hit
    rw [hnext]
    rcases List.mem_append.mp hit with h2 | h2
    · exact Nat.lt_succ_of_lt (w2 it h2)
    · rcases List.mem_map.mp h2 with ⟨x, _, rfl⟩
      exact Nat.lt_succ_self _
  · rw [hpid]
    exact w3
  · intro p hp
    rw [hnpid]
    exact mem_map_id_bound (fun p => p.id) db2.products db.products hpid
      db.nextProductId w4 p hp
  · rw [hnext]
    exact Nat.lt_succ_self _

/-! ## Order-total invariant (C2): per-shape frame lemmas -/

theorem frame_refl (db : DB) (oid : Nat) (hwf : WF db) :
    FramePreserved db db oid :=
  ⟨hwf, Nat.le_refl _, rfl, rfl⟩

/-- A step that rewrites none of orders, order_items, products and id
counters preserves the frame (it may touch users, transactions and the
earnings ledger freely). -/
theorem frame_of_core_eq (db db2 : DB) (oid : Nat) (hwf : WF db)
    (h1 : db2.orders = db.orders) (h2 : db2.order_items = db.order_items)
    (h3 : db2.products = db.products) (h4 : db2.nextOrderId = db.nextOrderId)
    (h5 : db2.nextProductId = db.nextProductId) :
    FramePreserved db db2 oid := by
  obtain ⟨w1, w2, w3, w4⟩ := hwf
  refine ⟨⟨?_, ?_, ?_, ?_⟩, Nat.le_of_eq h4.symm, ?_, ?_⟩
  · intro o ho
    rw [h1] at ho
    rw [h4]
    exact w1 o ho
  · intro it hit
    rw [h2] at hit
    rw [h4]
    exact w2 it hit
  · rw [h3]
    exact w3
  · intro p hp
    rw [h3] at hp
    rw [h5]
    exact w4 p hp
  · unfold itemsFor
    rw [h2]
  · unfold totalsFor
    rw [h1]

/-- A step that maps an id- and total-preserving function over orders. -/
theorem frame_of_orders_map (db db2 : DB) (oid : Nat) (g : Order → Order)
    (hwf : WF db)
    (hg : ∀ o, (g o).id = o.id ∧ (g o).total_amount = o.total_amount)
    (h1 : db2.orders = db.orders.map g) (h2 : db2.order_items = db.order_items)
    (h3 : db2.products = db.products) (h4 : db2.nextOrderId = db.nextOrderId)
    (h5 : db2.nextProductId = db.nextProductId) :
    FramePreserved db db2 oid := by
  obtain ⟨w1, w2, w3, w4⟩ := hwf
  refine ⟨⟨?_, ?_, ?_, ?_⟩, Nat.le_of_eq h4.symm, ?_, ?_⟩
  · intro o ho
    rw [h1] at ho
    rw [h4]
    rcases List.mem_map.mp ho with ⟨o0, ho0, rfl⟩
    rw [(hg o0).1]
    exact w1 o0 ho0
  · intro it hit
    rw [h2] at hit
    rw [h4]
    exact w2 it hit
  · rw [h3]
    exact w3
  · intro p hp
    rw [h3] at hp
    rw [h5]
    exact w4 p hp
  · unfold itemsFor
    rw [h2]
  · unfold totalsFor
    rw [h1]
    exact totalsForL_map db.orders g oid hg

/-- A step that maps an id-preserving function over products. -/
theorem frame_of_products_map (db db2 : DB) (oid : Nat)
    (g : Product → Product) (hwf : WF db) (hg : ∀ p, (g p).id = p.id)
    (h1 : db2.products = db.products.map g) (h2 : db2.orders = db.orders)
    (h3 : db2.order_items = db.order_items)
    (h4 : db2.nextOrderId = db.nextOrderId)
    (h5 : db2.nextProductId = db.nextProductId) :
    FramePreserved db db2 oid := by
  obtain ⟨w1, w2, w3, w4⟩ := hwf
  refine ⟨⟨?_, ?_, ?_, ?_⟩, Nat.le_of_eq h4.symm, ?_, ?_⟩
  · intro o ho
    rw [h2] at ho
    rw [h4]
    exact w1 o ho
  · intro it hit
    rw [h3] at hit
    rw [h4]
    exact w2 it hit
  · rw [h1, map_proj_of_pres g _ hg]
    exact w3
  · intro p hp
    rw [h1] at hp
    rw [h5]
    rcases List.mem_map.mp hp with ⟨p0, hp0, rfl⟩
    rw [hg p0]
    exact w4 p0 hp0
  · unfold itemsFor
    rw [h3]
  · unfold totalsFor
    rw [h2]

/-- A step that appends one product carrying the fresh AUTOINCREMENT id. -/
theorem frame_of_product_insert (db db2 : DB) (oid : Nat) (p : Product)
    (hwf : WF db) (hpid : p.id = db.nextProductId)
    (h1 : db2.products = db.products ++ [p]) (h2 : db2.orders = db.orders)
    (h3 : db2.order_items = db.order_items)
    (h4 : db2.nextOrderId = db.nextOrderId)
    (h5 : db2.nextProductId = db.nextProductId + 1) :
    FramePreserved db db2 oid := by
  obtain ⟨w1, w2, w3, w4⟩ := hwf
  refine ⟨⟨?_, ?_, ?_, ?_⟩, Nat.le_of_eq h4.symm, ?_, ?_⟩
  · intro o ho
    rw [h2] at ho
    rw [h4]
    exact w1 o ho
  · intro it hit
    rw [h3] at hit
    rw [h4]
    exact w2 it hit
  · rw [h1, List.map_append, List.map_cons, List.map_nil]
    refine nodup_append_singleton _ _ w3 ?_
    intro hm
    rcases List.mem_map.mp hm with ⟨q, hq, hqid⟩
    have hlt := w4 q hq
    rw [hqid, hpid] at hlt
    exact Nat.lt_irrefl _ hlt
  · intro q hq
    rw [h1] at hq
    rw [h5]
    rcases List.mem_append.mp hq with hq2 | hq2
    · exact Nat.lt_succ_of_lt (w4 q hq2)
    · rw [List.mem_singleton] at hq2
      subst hq2
      rw [hpid]
      exact Nat.lt_succ_self _
  · unfold itemsFor
    rw [h3]
  · unfold totalsFor
    rw [h2]

/-- Creating a DIFFERENT order preserves the frame of an existing one: the
appended order row and item rows all carry the fresh id. -/
theorem frame_of_create (db : DB) (oid b : Nat) (req : CreateOrderReq)
    (hwf : WF db) (hlt : oid < db.nextOrderId) :
    FramePreserved db (createOrder db b req).2 oid := by
  cases hres : (createOrder db b req).1 with
  | error e =>
    rw [createOrder_err db b req e (createOrder db b req).2
      (by rw [← hres])]
    exact frame_refl db oid hwf
  | ok pr =>
    obtain ⟨noid, total⟩ := pr
    have h : createOrder db b req = (Except.ok (noid, total),
        (createOrder db b req).2) := by
      rw [← hres]
    rcases createOrder_ok_parts db b req noid total _ h with
      ⟨hoid, hct, ho, hoi, hpid, hnext, hnpid⟩
    rcases createOrder_created db b req noid total _ hwf h with
      ⟨_, _, _, hwf2, _, _⟩
    subst hoid
    refine ⟨hwf2, by rw [hnext]; exact Nat.le_succ _, ?_, ?_⟩
    · unfold itemsFor
      rw [hoi, List.filter_append]
      have hnil : (req.items.map (builtItem db.products db.nextOrderId)).filter
          (fun it => it.order_id == oid) = [] :=
        filter_eq_nil_of_all _ _ (fun it hit => by
          rcases List.mem_map.mp hit with ⟨x, _, rfl⟩
          simp [builtItem, Nat.ne_of_gt hlt])
      rw [hnil, List.append_nil]
    · unfold totalsFor
      rw [ho, List.filterMap_append]
      have hnil : ([{
          id := db.nextOrderId, buyer_id := b, seller_id := none,
          status := OrderStatus.pending, total_amount := total,
          contact_name := req.contact_name, contact_email := req.contact_email,
          contact_phone := req.contact_phone, contact_info := req.contact_info,
          payment_proof := none,
          binance_txid := none }] : List Order).filterMap (fun o =>
            if o.id == oid then some o.total_amount else none) = [] := by
        simp [Nat.ne_of_gt hlt]
      rw [hnil, List.append_nil]

theorem frame_insertUser (db : DB) (oid : Nat) (e pw : String) (role : Role)
    (w : Option String) (hwf : WF db) :
    FramePreserved db (insertUser db e pw role w).2 oid := by
  unfold insertUser
  by_cases hv : e = "" ∨ pw = ""
  · rw [if_pos hv]
    exact frame_refl db oid hwf
  rw [if_neg hv]
  cases db.users.find? (fun u => u.email == e) with
  | some _ => exact frame_refl db oid hwf
  | none => exact frame_of_core_eq db _ oid hwf rfl rfl rfl rfl rfl

/-- Any single request preserves the frame of an already created order. -/
theorem step_frame (db : DB) (a : Action) (oid : Nat) (hwf : WF db)
    (hlt : oid < db.nextOrderId) : FramePreserved db (step db a) oid := by
  cases a with
  | create b r =>
    exact frame_of_create db oid b r hwf hlt
  | setStatus a2 oid2 s sp =>
    show FramePreserved db (updateOrderStatus db a2 oid2 s sp).2 oid
    unfold updateOrderStatus statusReqOnSnapshot
    cases parseStatus s with
    | none => exact frame_refl db oid hwf
    | some st =>
      cases orderById db oid2 with
      | none => exact frame_refl db oid hwf
      | some ord =>
        dsimp only
        unfold statusWrite
        by_cases hcond : st = OrderStatus.processing ∧
            sellerUnset ord.seller_id = true
        · rw [if_pos hcond]
          exact frame_of_orders_map db _ oid _ hwf
            (fun o => by by_cases h : o.id = oid2 <;> simp [h])
            rfl rfl rfl rfl rfl
        · rw [if_neg hcond]
          exact frame_of_orders_map db _ oid _ hwf
            (fun o => by by_cases h : o.id = oid2 <;> simp [h])
            rfl rfl rfl rfl rfl
  | payProof b2 oid2 pf txid =>
    show FramePreserved db (submitPaymentProof db b2 oid2 pf txid).2 oid
    unfold submitPaymentProof
    cases db.orders.find? (fun o => o.id == oid2 && o.buyer_id == b2) with
    | none => exact frame_refl db oid hwf
    | some ord =>
      exact frame_of_orders_map db _ oid (proofUpd oid2 pf txid) hwf
        (fun o => by by_cases h : o.id = oid2 <;> simp [proofUpd, h])
        rfl rfl rfl rfl rfl
  | payCreate b2 oid2 amt pre =>
    show FramePreserved db (paymentCreate db b2 oid2 amt pre).2 oid
    unfold paymentCreate
    by_cases hv : oid2 = 0 ∨ amt = 0
    · rw [if_pos hv]
      exact frame_refl db oid hwf
    rw [if_neg hv]
    cases db.orders.find? (fun o => o.id == oid2 && o.buyer_id == b2) with
    | none => exact frame_refl db oid hwf
    | some ord =>
      exact frame_of_orders_map db _ oid _ hwf
        (fun o => by by_cases h : o.id = oid2 <;> simp [h])
        rfl rfl rfl rfl rfl
  | hook h p =>
    show FramePreserved db (webhook db h p).2 oid
    unfold webhook
    by_cases hb : p.bizStatus = "PAY_SUCCESS"
    · rw [if_pos hb]
      cases classifyTradeNo p.merchantTradeNo with
      | noMatch => exact frame_refl db oid hwf
      | bindError => exact frame_refl db oid hwf
      | resolved oid2 =>
        exact frame_of_orders_map db _ oid _ hwf
          (fun o => by by_cases h2 : o.id = oid2 <;> simp [h2])
          rfl rfl rfl rfl rfl
    · rw [if_neg hb]
      exact frame_refl db oid hwf
  | register e pw w => exact frame_insertUser db oid e pw Role.buyer w hwf
  | newSeller e pw w => exact frame_insertUser db oid e pw Role.seller w hwf
  | editSeller hash sid r =>
    show FramePreserved db (updateSeller hash db sid r).2 oid
    unfold updateSeller
    cases sellerById db sid with
    | none => exact frame_refl db oid hwf
    | some s => exact frame_of_core_eq db _ oid hwf rfl rfl rfl rfl rfl
  | dropSeller sid =>
    exact frame_of_core_eq db _ oid hwf rfl rfl rfl rfl rfl
  | earn sid amt op =>
    show FramePreserved db (updateEarnings db sid amt op).2 oid
    unfold updateEarnings
    by_cases hv : amt = 0 ∨ op = ""
    · rw [if_pos hv]
      exact frame_refl db oid hwf
    rw [if_neg hv]
    cases sellerById db sid with
    | none => exact frame_refl db oid hwf
    | some s =>
      dsimp only
      by_cases ha : op = "add"
      · rw [if_pos ha]
        exact frame_of_core_eq db _ oid hwf rfl rfl rfl rfl rfl
      rw [if_neg ha]
      by_cases hs : op = "set"
      · rw [if_pos hs]
        exact frame_of_core_eq db _ oid hwf rfl rfl rfl rfl rfl
      · rw [if_neg hs]
        exact frame_refl db oid hwf
  | sale sid oid2 amt =>
    show FramePreserved db (assignSale db sid oid2 amt).2 oid
    unfold assignSale
    by_cases hv : oid2 = 0 ∨ amt = 0
    · rw [if_pos hv]
      exact frame_refl db oid hwf
    rw [if_neg hv]
    cases sellerById db sid with
    | none => exact frame_refl db oid hwf
    | some s => exact frame_of_core_eq db _ oid hwf rfl rfl rfl rfl rfl
  | newProduct r =>
    show FramePreserved db (createProduct db r).2 oid
    unfold createProduct
    by_cases hv : r.name = "" ∨ r.price = 0 ∨ r.category_id = 0
    · rw [if_pos hv]
      exact frame_refl db oid hwf
    · rw [if_neg hv]
      exact frame_of_product_insert db _ oid _ hwf rfl rfl rfl rfl rfl rfl
  | editProduct pid r =>
    exact frame_of_products_map db _ oid _ hwf
      (fun p => by by_cases h : p.id = pid <;> simp [h])
      rfl rfl rfl rfl rfl
  | dropProduct pid =>
    exact frame_of_products_map db _ oid _ hwf
      (fun p => by by_cases h : p.id = pid <;> simp [h])
      rfl rfl rfl rfl rfl

/-- Any request sequence preserves the frame of an already created order. -/
theorem steps_frame (oid : Nat) (acts : List Action) : ∀ db : DB, WF db →
    oid < db.nextOrderId →
    WF (acts.foldl step db) ∧
    db.nextOrderId ≤ (acts.foldl step db).nextOrderId ∧
    itemsFor (acts.foldl step db) oid = itemsFor db oid ∧
    totalsFor (acts.foldl step db) oid = totalsFor db oid := by
  induction acts with
  | nil =>
    intro db hwf _
    exact ⟨hwf, Nat.le_refl _, rfl, rfl⟩
  | cons a rest ih =>
    intro db hwf hlt
    rcases step_frame db a oid hwf hlt with ⟨hwf2, hle, hitems, htot⟩
    rcases ih (step db a) hwf2 (Nat.lt_of_lt_of_le hlt hle) with
      ⟨hwf3, hle3, hit3, htot3⟩
    exact ⟨hwf3, Nat.le_trans hle hle3, hit3.trans hitems, htot3.trans htot⟩

/-- C2: a successful POST /orders stores an order whose total_amount is
exactly Σ quantity × captured price over its freshly inserted order_items
rows, and no subsequent request — another order creation, a status update,
a payment-proof submission, a payment creation, a webhook, any user,
earnings or catalog mutation, in particular any later product price change —
alters that order's total_amount or its item rows. -/
theorem c2_total_immutable (db : DB) (b : Nat) (req : CreateOrderReq)
    (oid : Nat) (total : Int) (db1 : DB) (acts : List Action) (hwf : WF db)
    (hrun : createOrder db b req = (Except.ok (oid, total), db1)) :
    totalsFor (acts.foldl step db1) oid = [total] ∧
    itemsFor (acts.foldl step db1) oid = itemsFor db1 oid ∧
    itemsSum (acts.foldl step db1) oid = total ∧
    itemsSum db1 oid = total := by
  rcases createOrder_created db b req oid total db1 hwf hrun with
    ⟨htot1, hitems1, hsum1, hwf1, hnext1, hlt1⟩
  rcases steps_frame oid acts db1 hwf1 hlt1 with ⟨_, _, hit, htot⟩
  refine ⟨htot.trans htot1, hit, ?_, hsum1⟩
  unfold itemsSum
  rw [show itemsFor (acts.foldl step db1) oid = itemsFor db1 oid from hit]
  exact hsum1

def dbC2 : DB :=
  { emptyDB with
    users := [{ id := 9, email := "buyer@mail.test", password := "h",
                role := Role.buyer, binance_wallet := none, earnings := 0,
                is_active := true }, mkSeller 7 ("s7@mail.test")],
    categories := [{ id := 1, name := "Gift Cards", description := "d" }],
    products := [giftCard],
    nextUserId := 10, nextProductId := 2 }

def reqC2 : CreateOrderReq :=
  { items := [{ product_id := 1, quantity := 2 }],
    contact_name := "Ana", contact_email := "ana@mail.test",
    contact_phone := none, contact_info := none }

/-- A later price change, a claim and a webhook notification. -/
def actsC2 : List Action :=
  [Action.editProduct 1
    { name := "Amazon Gift Card", description := some ("gc"), price := 999,
      stock := 40, category_id := 1, image_url := none, is_active := true },
   Action.setStatus 7 1 ("processing") none,
   Action.hook hdrX payX]

theorem c2_total_immutable_witness :
    totalsFor (actsC2.foldl step (createOrder dbC2 9 reqC2).2) 1 = [110] :=
  (c2_total_immutable dbC2 9 reqC2 1 110 (createOrder dbC2 9 reqC2).2 actsC2
    (by decide) (by decide)).1

end Selleing
